import Mathlib

/-!
# Verification of the memvid-rag-agent orchestration core

A shallow embedding, in Lean 4, of the control-flow and data-contract layer of
the `memvid_rag` package (files `memvid_rag/utils/tools.py`,
`memvid_rag/utils/nodes.py`, `memvid_rag/agent.py`), together with theorems
settling the behavioural claims about it.

Modelling conventions:
* Python strings are `List Char` (`Str`). Character classes (`\w`, `[a-zA-Z]`,
  `str.lower`, `str.strip`) are modelled over ASCII, which is what every query,
  path and keyword in the specification exercises.
* The external collaborators (file system, `pathlib` normalisation, the memvid
  encoder/retriever, the LLM) are parameters gathered in an `Env` record;
  a call that can raise is modelled with `Except`.
* Python floats (relevance scores, megabyte sizes) are modelled as rationals;
  NaN behaviour is outside the model.
* `re.findall` for the concrete patterns appearing in `tools.py` is implemented
  directly as left-to-right scanners with the same leftmost, greedy,
  backtracking semantics restricted to those patterns.
-/

set_option maxRecDepth 10000

abbrev Str := List Char

/-- Shorthand turning a string literal into the `List Char` representation. -/
def str (x : String) : Str := x.toList

/-- Python `needle in hay` substring test. -/
def containsSub : Str → Str → Bool
  | n, [] => n.isEmpty
  | n, h :: t => List.isPrefixOf n (h :: t) || containsSub n t

/-- ASCII model of Python `str.lower()`. -/
def pyLower (l : Str) : Str := l.map Char.toLower

/-- ASCII model of Python `str.strip()` (no argument): remove leading and
trailing whitespace. -/
def pyStrip (l : Str) : Str :=
  ((l.dropWhile Char.isWhitespace).reverse.dropWhile Char.isWhitespace).reverse

/-- Python regex `\w` over ASCII: letters, digits and underscore. -/
def isWordChar (c : Char) : Bool := c.isAlpha || c.isDigit || c = '_'

/-- The character class `[\w\-_./\\]` of the unquoted path patterns. -/
def clsPath (c : Char) : Bool :=
  isWordChar c || c = '-' || c = '.' || c = '/' || c = '\\'

/-- The character class `[\w\-_.]` of the unquoted directory pattern. -/
def clsDir (c : Char) : Bool := isWordChar c || c = '-' || c = '.'

/-- Whether a quote-free span matches `[^q]+\.[a-zA-Z]{2,4}` exactly up to its
end: it ends in a dot followed by two to four ASCII letters, with at least one
character before that dot.  This is the content condition of the quoted path
patterns `"([^"]+\.[a-zA-Z]{2,4})"` and `'([^']+\.[a-zA-Z]{2,4})'`. -/
def extSuffixOk (c : Str) : Bool :=
  let r := c.reverse
  let run := r.takeWhile Char.isAlpha
  let rest := r.dropWhile Char.isAlpha
  2 ≤ run.length && run.length ≤ 4 && rest.head? = some '.' && 1 < rest.length

/-- Content condition of the quoted directory patterns `"([^"]+/)"` and
`'([^']+/)'`: a quote-free span of length at least two ending in `/`. -/
def dirContentOk (c : Str) : Bool :=
  2 ≤ c.length && c.getLast? = some '/'

/-- `re.findall` for a pattern of the shape `q(C)q` where `C` is a condition on
the quote-free content (the quoted patterns of `extract_document_paths` and
`extract_directory_from_query`).  Matching behaves like the Python engine: a
match can only start at a quote, its closing quote is the next quote in the
input, and scanning resumes after a successful match, or at the closing quote
(a potential new opening quote) after a failed one.  Implemented as one
left-to-right pass whose state is `none` (outside any quote) or `some acc`
(inside a quote, with the accumulated content in reverse). -/
def scanQuoted (ok : Str → Bool) (q : Char) : Str → Option Str → List Str
  | [], _ => []
  | c :: rest, none =>
    if c = q then scanQuoted ok q rest (some [])
    else scanQuoted ok q rest none
  | c :: rest, some acc =>
    if c = q then
      if ok acc.reverse then acc.reverse :: scanQuoted ok q rest none
      else scanQuoted ok q rest (some [])
    else scanQuoted ok q rest (some (c :: acc))

def findQuotedBy (ok : Str → Bool) (q : Char) (l : Str) : List Str :=
  scanQuoted ok q l none

/-- Greedy match of `[a-zA-Z]{2,4}` at the head of `l`, with, when `requireB`
is set, a trailing `\b` word-boundary requirement (the previous character is a
letter, so the next one must not be a word character).  Returns the number of
characters consumed. -/
def matchExt (requireB : Bool) (l : Str) : Option Nat :=
  let A := (l.takeWhile Char.isAlpha).length
  let boundaryAfter : Nat → Bool := fun j =>
    match l.drop j with
    | [] => true
    | c :: _ => !isWordChar c
  let ok : Nat → Bool := fun j => j ≤ A && (!requireB || boundaryAfter j)
  if ok 4 then some 4 else if ok 3 then some 3 else if ok 2 then some 2 else none

/-- Backtracking loop for `cls+ \. [a-zA-Z]{2,4}` at the head of `l`: try to
stop the greedy `cls+` after `k` characters (largest `k` first), require a dot
there and an extension after it.  Returns the total number of characters
consumed by the core. -/
def coreGo (requireB : Bool) (l : Str) : Nat → Option Nat
  | 0 => none
  | k + 1 =>
    match
      (if l.get? (k + 1) = some '.' then
        (matchExt requireB (l.drop (k + 2))).map (fun j => k + 2 + j)
      else none) with
    | some n => some n
    | none => coreGo requireB l k

/-- Match `cls+ \. [a-zA-Z]{2,4}` (with optional trailing `\b`) at the head of
`l`. -/
def matchCore (cls : Char → Bool) (requireB : Bool) (l : Str) : Option Nat :=
  coreGo requireB l (l.takeWhile cls).length

/-- Word-boundary test between an optional previous character and an optional
next character. -/
def wordBoundary (p n : Option Char) : Bool :=
  (match p with | some c => isWordChar c | none => false) !=
    (match n with | some c => isWordChar c | none => false)

/-- Match attempt, at the current position, of the first unquoted pattern
`(\b[\w\-_./\\]+\.[a-zA-Z]{2,4})\b` of `extract_document_paths`. -/
def matchP1At (prev : Option Char) (l : Str) : Option Nat :=
  if wordBoundary prev l.head? then matchCore clsPath true l else none

/-- Match attempt, at the current position, of the second unquoted pattern
`([/\\]?[\w\-_./\\]+\.[a-zA-Z]{2,4})`: a greedy optional slash, backtracked if
the core fails after it. -/
def matchP2At (_prev : Option Char) (l : Str) : Option Nat :=
  match l with
  | [] => none
  | c :: rest =>
    if c = '/' || c = '\\' then
      match matchCore clsPath false rest with
      | some n => some (n + 1)
      | none => matchCore clsPath false l
    else matchCore clsPath false l

/-- Backtracking loop for `[\w\-_.]+[/\\]`: stop the greedy class after `k`
characters and require a slash there. -/
def dirGo (l : Str) : Nat → Option Nat
  | 0 => none
  | k + 1 =>
    if l.get? (k + 1) = some '/' || l.get? (k + 1) = some '\\' then some (k + 2)
    else dirGo l k

/-- Match attempt, at the current position, of the unquoted directory pattern
`([/\\]?[\w\-_.]+[/\\])` of `extract_directory_from_query`. -/
def matchP3At (_prev : Option Char) (l : Str) : Option Nat :=
  match l with
  | [] => none
  | c :: rest =>
    if c = '/' || c = '\\' then
      match dirGo rest (rest.takeWhile clsDir).length with
      | some n => some (n + 1)
      | none => dirGo (c :: rest) ((c :: rest).takeWhile clsDir).length
    else dirGo (c :: rest) ((c :: rest).takeWhile clsDir).length

/-- `re.findall` driver for the unquoted patterns: at each position attempt the
match; on success record the consumed prefix (the captured group spans the
whole match for these patterns) and resume after it, otherwise advance one
character.  `prev` tracks the preceding character for `\b`. -/
def scanWithFuel (matchAt : Option Char → Str → Option Nat) :
    Nat → Option Char → Str → List Str
  | 0, _, _ => []
  | _ + 1, _, [] => []
  | fuel + 1, prev, c :: rest =>
    match matchAt prev (c :: rest) with
    | some (n + 1) =>
      (c :: rest).take (n + 1) ::
        scanWithFuel matchAt fuel ((c :: rest).take (n + 1)).getLast?
          ((c :: rest).drop (n + 1))
    | _ => scanWithFuel matchAt fuel (some c) rest

/-- The scan starts with fuel equal to the input length; every step consumes at
least one character, so the fuel never runs out before the input does. -/
def scanWith (matchAt : Option Char → Str → Option Nat)
    (prev : Option Char) (l : Str) : List Str :=
  scanWithFuel matchAt l.length prev l

/-- The false-positive filter of `extract_document_paths`: candidate unquoted
matches containing an URL-like fragment are dropped. -/
def isFalsePositive (m : Str) : Bool :=
  let ml := pyLower m
  containsSub (str "www.") ml || containsSub (str "http") ml ||
    containsSub (str ".com") ml || containsSub (str ".org") ml

/-- `tools.extract_document_paths`: quoted patterns first (both quote styles);
only if neither produced a match, the two unquoted patterns filtered against
URL-like false positives.  Candidates are stripped, kept when longer than one
character, and deduplicated (`list(set(...))`; Python's set iteration order is
unspecified, the model keeps the last occurrence of each duplicate as
`List.dedup` does — every claim about this function is order-insensitive). -/
def extract_document_paths (query : Str) : List Str :=
  let quoted := findQuotedBy extSuffixOk '"' query ++ findQuotedBy extSuffixOk '\'' query
  let paths :=
    if quoted.isEmpty then
      (scanWith matchP1At none query).filter (fun m => !isFalsePositive m) ++
        (scanWith matchP2At none query).filter (fun m => !isFalsePositive m)
    else quoted
  ((paths.map pyStrip).filter (fun p => 1 < p.length)).dedup

/-- Final path component (POSIX `pathlib`: split on `/`). -/
def lastComponent (p : Str) : Str :=
  (p.reverse.takeWhile (fun c => c ≠ '/')).reverse

/-- `pathlib.PurePath.suffix`: the final `.`-extension of the last component,
empty when the dot is the first character of the name or the last. -/
def pySuffix (p : Str) : Str :=
  let nm := lastComponent p
  let r := nm.reverse
  let k := (r.takeWhile (fun c => c ≠ '.')).length
  if k < r.length && 0 < k && k + 1 < r.length then (r.take (k + 1)).reverse
  else []

/-- `pathlib.PurePath.stem`: last component without its suffix. -/
def pyStem (p : Str) : Str :=
  let nm := lastComponent p
  nm.take (nm.length - (pySuffix p).length)

/-- The supported-extension set of `validate_file_paths` (a Python set literal;
its iteration order is unspecified, the model fixes the written order). -/
def supportedExtensions : List Str :=
  [str ".pdf", str ".txt", str ".epub", str ".md", str ".docx"]

structure ValidationResult where
  valid : List Str
  invalid : List Str
  supported_extensions : List Str
deriving DecidableEq, Repr

/-- The per-path classification used by `validate_file_paths`:
`Path(path).exists()` and `Path(path).suffix.lower()` in the supported set.
`exists` is the external file system, one of the `Env` parameters. -/
def pathIsValid (exists? : Str → Bool) (p : Str) : Bool :=
  exists? p && (supportedExtensions.contains (pyLower (pySuffix p)))

/-- `tools.validate_file_paths`.  A valid path is recorded as `str(path_obj)`
(the `pathlib` normalisation `pathStr`, an external parameter); an invalid one
is recorded as the raw input tagged with the reason. -/
def validate_file_paths (exists? : Str → Bool) (pathStr : Str → Str) :
    List Str → ValidationResult
  | [] => ⟨[], [], supportedExtensions⟩
  | p :: rest =>
    let r := validate_file_paths exists? pathStr rest
    if exists? p then
      if supportedExtensions.contains (pyLower (pySuffix p)) then
        ⟨pathStr p :: r.valid, r.invalid, r.supported_extensions⟩
      else
        ⟨r.valid, (p ++ str " (unsupported format)") :: r.invalid, r.supported_extensions⟩
    else
      ⟨r.valid, (p ++ str " (file not found)") :: r.invalid, r.supported_extensions⟩

/-- Collapse runs of `_` (the `re.sub(r'_+', '_', ...)` step). -/
def collapseUnderscores : Str → Str
  | [] => []
  | '_' :: rest => '_' :: collapseUnderscores (rest.dropWhile (fun c => c = '_'))
  | c :: rest => c :: collapseUnderscores rest
termination_by l => l.length
decreasing_by
  · have := List.Sublist.length_le (List.dropWhile_sublist (fun c => c = '_') (l := rest))
    simp only [List.length_cons]; omega
  · simp

/-- The reserved characters replaced by `sanitize_memory_name`. -/
def isReservedChar (c : Char) : Bool :=
  c = '<' || c = '>' || c = ':' || c = '"' || c = '/' || c = '\\' ||
    c = '|' || c = '?' || c = '*'

/-- Python `str.strip('_')`. -/
def stripUnderscores (l : Str) : Str :=
  ((l.dropWhile (fun c => c = '_')).reverse.dropWhile (fun c => c = '_')).reverse

/-- `tools.sanitize_memory_name`. -/
def sanitize_memory_name (name : Str) : Str :=
  let s1 := name.map (fun c => if isReservedChar c then '_' else c)
  let s2 := collapseUnderscores s1
  let s3 := stripUnderscores s2
  let s4 := if 50 < s3.length then s3.take 50 else s3
  if s4.isEmpty then str "memory" else s4

/-- `tools.generate_memory_name`; the `datetime.now()` timestamp is an external
parameter. -/
def generate_memory_name (timestamp : Str) (documents : List Str) : Str :=
  match documents with
  | [d] => sanitize_memory_name (pyStem d ++ str "_" ++ timestamp)
  | [] => str "memory_" ++ timestamp
  | _ => str "documents_" ++ timestamp

/-- Truthiness of the directory result in `parse_query_intent`
(`or directory_path`: not `None` and non-empty). -/
def optStrTruthy : Option Str → Bool
  | some d => !d.isEmpty
  | none => false

/-- `tools.extract_directory_from_query`: the three directory patterns in
order, returning the first match of the first pattern that has any. -/
def extract_directory_from_query (query : Str) : Option Str :=
  match findQuotedBy dirContentOk '"' query with
  | m :: _ => some m
  | [] =>
    match findQuotedBy dirContentOk '\'' query with
    | m :: _ => some m
    | [] =>
      match scanWith matchP3At none query with
      | m :: _ => some m
      | [] => none

def ingestionPatterns : List Str :=
  [str "ingest", str "add", str "load", str "import", str "process",
   str "index", str "upload", str "include", str "incorporate"]

def searchPatterns : List Str :=
  [str "search", str "find", str "what", str "how", str "when", str "where",
   str "why", str "explain", str "describe", str "tell me", str "show me"]

def managementPatterns : List Str :=
  [str "list", str "show", str "stats", str "statistics", str "status",
   str "manage", str "delete", str "remove", str "clear"]

structure IntentInfo where
  intent : Str
  document_paths : List Str
  directory_path : Option Str
  original_query : Str
deriving DecidableEq, Repr

/-- `tools.parse_query_intent`. -/
def parse_query_intent (query : Str) : IntentInfo :=
  let ql := pyLower query
  let document_paths := extract_document_paths query
  let directory_path := extract_directory_from_query query
  let intent :=
    if ingestionPatterns.any (fun p => containsSub p ql) ||
        !document_paths.isEmpty || optStrTruthy directory_path then
      str "ingest"
    else if managementPatterns.any (fun p => containsSub p ql) then
      str "manage"
    else if searchPatterns.any (fun p => containsSub p ql) then
      str "search"
    else
      str "chat"
  ⟨intent, document_paths, directory_path, query⟩

/-! ## Number rendering (`f"{n}"`, `f"{x:.1f}"`, `f"{x:.3f}"`)

Python formats binary floats; the model formats the corresponding rational
with the same round-half-to-even rule. -/

def natStr (n : Nat) : Str := (Nat.repr n).toList

def ratRoundHalfEven (x : ℚ) : ℤ :=
  let fl := ⌊x⌋
  if x - fl > 1/2 then fl + 1
  else if x - fl < 1/2 then fl
  else if 2 ∣ fl then fl else fl + 1

def padZeros (d : Nat) (l : Str) : Str :=
  List.replicate (d - l.length) '0' ++ l

def formatQ (d : Nat) (x : ℚ) : Str :=
  let n := ratRoundHalfEven (x * (10 ^ d : ℕ))
  let sign : Str := if n < 0 then str "-" else []
  let a := n.natAbs
  if d = 0 then sign ++ natStr a
  else sign ++ natStr (a / 10 ^ d) ++ str "." ++ padZeros d (natStr (a % 10 ^ d))

/-! ## Data model (`utils/state.py`, langchain messages) -/

inductive Role
  | human
  | ai
deriving DecidableEq, Repr

structure Message where
  role : Role
  content : Str
deriving DecidableEq, Repr

/-- `langchain_core.messages.HumanMessage`. -/
def HumanMessage (content : Str) : Message := ⟨Role.human, content⟩

/-- `langchain_core.messages.AIMessage`. -/
def AIMessage (content : Str) : Message := ⟨Role.ai, content⟩

/-- A retrieved chunk record `{"text", "score", "source_memory", "rank"}` as
built by `retrieve_context_node`. -/
structure Chunk where
  text : Str
  score : ℚ
  source_memory : Str
  rank : Nat
deriving DecidableEq, Repr

/-- The produced-memory descriptor stored under `state["memory_paths"]`. -/
structure MemoryPaths where
  video : Str
  index : Str
  name : Str
deriving DecidableEq, Repr

/-- `utils/state.py` `ConversationState`.  The initially-empty Python dict
`memory_paths = {}` is `none`; `error_message = None` is `none`. -/
structure ConversationState where
  messages : List Message
  query : Str
  context : List Str
  retrieved_chunks : List Chunk
  response : Str
  intent : Str
  processing_status : Str
  session_id : Str
  memory_paths : Option MemoryPaths
  error_message : Option Str
deriving DecidableEq, Repr

/-- The external collaborators, gathered as one parameter record:
* `pathExists` — `Path(p).exists()` / `os.path.exists(p)`;
* `pathStr` — the `str(Path(p))` normalisation done by `pathlib`;
* `addPdf`/`addEpub`/`addText` — the memvid encoder calls made for one file
  (including, for the text branch, the `open(...).read()` that precedes
  `add_text`): the chunks appended to `encoder.chunks`, or the exception
  message raised;
* `buildVideo video index` — `encoder.build_video` followed by the
  `stat().st_size` read: the resulting artifact size in MB, or the exception;
* `llm` — `llm.ainvoke(messages)`: the generated content or the exception;
* `memories` — the `active_memories` registry in insertion order; each entry
  maps the query to the result of `retriever.search(query, top_k=5)` (an
  ordered `(text, score)` list) or to the exception it raises;
* `scanDirectory` — `scan_directory_for_documents` (a directory listing
  filtered by the supported extensions: a file-system read);
* `videoSizeMB` — `stat().st_size / (1024*1024)` for a video path;
* `mp4Files` — the `storage_path.glob("*.mp4")` listing (empty when the
  storage directory does not exist);
* `storagePath` — `str(self.memory_storage_path)`;
* `timestamp` — `datetime.now().strftime("%Y%m%d_%H%M%S")`. -/
structure Env where
  pathExists : Str → Bool
  pathStr : Str → Str
  addPdf : Str → Except Str (List Str)
  addEpub : Str → Except Str (List Str)
  addText : Str → Except Str (List Str)
  buildVideo : Str → Str → Except Str ℚ
  llm : List Message → Except Str Str
  memories : List (Str × (Str → Except Str (List (Str × ℚ))))
  scanDirectory : Str → List Str
  videoSizeMB : Str → ℚ
  mp4Files : List Str
  storagePath : Str
  timestamp : Str

/-! ## Node functions (`utils/nodes.py`) -/

/-- `analyze_query_node`.  `parse_query_intent` is pure and total, so the
`except` branch of the Python node (intent `"error"`, status
`"analysis_error"`) is unreachable in the model. -/
def analyze_query_node (st : ConversationState) : ConversationState :=
  let info := parse_query_intent st.query
  { st with intent := info.intent, processing_status := str "analyzed" }

/-- `route_query`: the routing dict looked up with default
`"semantic_retriever"` (`state.get("intent", "chat")` also lands on the
retriever through the `"chat"` entry). -/
def route_query (st : ConversationState) : Str :=
  if st.intent = str "ingest" then str "document_ingestor"
  else if st.intent = str "search" then str "semantic_retriever"
  else if st.intent = str "chat" then str "semantic_retriever"
  else if st.intent = str "manage" then str "memory_manager"
  else if st.intent = str "error" then str "error_handler"
  else str "semantic_retriever"

/-- Whether a span contains one of the keywords of the directory-reference
pattern `(?:documents?|files?|folder)` (the optional plural `s` is subsumed by
the stem). -/
def hasDirKeyword (c : Str) : Bool :=
  containsSub (str "document") c || containsSub (str "file") c ||
    containsSub (str "folder") c

/-- `re.search(r'(["\']?)([^"\']*(?:documents?|files?|folder)[^"\']*)\1', q)`
returning `group(2)`: at a quote, the backreference forces the quote-free span
up to the next quote to be closed by the same quote character and to contain a
keyword; at any other character, the group is the quote-free span from that
position, provided it contains a keyword.  Positions are tried left to
right. -/
def dirScanSearch : Str → Option Str
  | [] => none
  | c :: rest =>
    if c = '"' || c = '\'' then
      let content := rest.takeWhile (fun x => x ≠ '"' && x ≠ '\'')
      match rest.dropWhile (fun x => x ≠ '"' && x ≠ '\'') with
      | d :: _ =>
        if d = c && hasDirKeyword content then some content
        else dirScanSearch rest
      | [] => dirScanSearch rest
    else
      let content := (c :: rest).takeWhile (fun x => x ≠ '"' && x ≠ '\'')
      if hasDirKeyword content then some content
      else dirScanSearch rest

/-- The candidate document paths of `ingest_documents_node`:
`extract_document_paths`, falling back on a directory reference scanned for
documents when the extraction is empty. -/
def ingestPaths (env : Env) (query : Str) : List Str :=
  let document_paths := extract_document_paths query
  if document_paths.isEmpty then
    match dirScanSearch (pyLower query) with
    | some d =>
      let potential := pyStrip d
      if env.pathExists potential then env.scanDirectory potential else []
    | none => []
  else document_paths

/-- The per-file loop of `ingest_documents_node`: dispatch on the lowered
suffix, count processed/failed files without aborting the batch, accumulate
the chunks added to the encoder, in file order. -/
def processFiles (env : Env) : List Str → Nat × Nat × List Str
  | [] => (0, 0, [])
  | p :: rest =>
    let r :=
      if pyLower (pySuffix p) = str ".pdf" then env.addPdf p
      else if pyLower (pySuffix p) = str ".epub" then env.addEpub p
      else env.addText p
    match r, processFiles env rest with
    | .ok cs, (a, b, acc) => (a + 1, b, cs ++ acc)
    | .error _, (a, b, acc) => (a, b + 1, acc)

def noDocumentsMsg : Str :=
  str "❌ No valid document paths found in your request. \n\n**To ingest documents, try:**\n• `Ingest \"document.pdf\" \"notes.txt\"`\n• `Process files in \"documents/\" folder`\n• `Add \"research_paper.pdf\" to memory`\n\n**Supported formats:** PDF, TXT, EPUB, MD, DOCX"

def invalidDocsMsg (invalid : List Str) (exts : List Str) : Str :=
  str "❌ No valid documents found.\n\n**Invalid paths:**\n" ++
    (List.intercalate (str "\n") (invalid.map (fun p => str "• " ++ p))) ++
    str "\n\n**Supported formats:** " ++ List.intercalate (str ", ") exts

structure IngestionStats where
  processed : Nat
  failed : Nat
  total_chunks : Nat
  video_size_mb : ℚ

/-- `tools.create_ingestion_summary`. -/
def create_ingestion_summary (stats : IngestionStats) (memoryName : Str) : Str :=
  str "✅ Successfully created memory '" ++ memoryName ++
    str "'\n\n📊 **Statistics:**\n• Processed files: " ++ natStr stats.processed ++
    str "\n• Failed files: " ++ natStr stats.failed ++
    str "\n• Total text chunks: " ++ natStr stats.total_chunks ++
    str "\n• Video memory size: " ++ formatQ 1 stats.video_size_mb ++
    str " MB\n\n🔍 You can now search this memory by asking questions about the content."

/-- `ingest_documents_node`.  The outer `try` is reflected by the `Except`
results of the encoder calls; everything before them is pure and cannot
raise. -/
def ingest_documents_node (env : Env) (st : ConversationState) : ConversationState :=
  let document_paths := ingestPaths env st.query
  if document_paths.isEmpty then
    { st with response := noDocumentsMsg, processing_status := str "no_documents" }
  else
    let vr := validate_file_paths env.pathExists env.pathStr document_paths
    if vr.valid.isEmpty then
      { st with response := invalidDocsMsg vr.invalid vr.supported_extensions,
                processing_status := str "invalid_documents" }
    else
      let memory_name := generate_memory_name env.timestamp vr.valid
      let r := processFiles env vr.valid
      if r.2.2.isEmpty then
        -- `encoder.chunks` is empty: the negative response is set, but the
        -- status line after the `if/else` still stamps "ingestion_complete"
        { st with response := str "❌ No content could be extracted from the provided documents.",
                  processing_status := str "ingestion_complete" }
      else
        let video := env.storagePath ++ str "/" ++ memory_name ++ str ".mp4"
        let index := env.storagePath ++ str "/" ++ memory_name ++ str "_index.json"
        match env.buildVideo video index with
        | .error e =>
          { st with response := str "❌ Error during document ingestion: " ++ e,
                    processing_status := str "ingestion_error",
                    error_message := some e }
        | .ok sizeMB =>
          let resp := create_ingestion_summary ⟨r.1, r.2.1, r.2.2.length, sizeMB⟩ memory_name
          let resp :=
            if vr.invalid.isEmpty then resp
            else resp ++ str "\n\n⚠️ **Skipped files:**\n" ++
              (List.intercalate (str "\n") (vr.invalid.map (fun p => str "• " ++ p)))
          { st with memory_paths := some ⟨video, index, memory_name⟩,
                    response := resp,
                    processing_status := str "ingestion_complete" }

/-- The registration step of `agent._wrap_ingest_documents`: a new retriever is
loaded exactly when the resulting state carries a produced-memory descriptor
(`result.get("memory_paths") and "name" in result["memory_paths"]`). -/
def wrapIngestRegisters (env : Env) (st : ConversationState) : Bool :=
  (ingest_documents_node env st).memory_paths.isSome

/-- The tagging loop of `retrieve_context_node`:
`for i, (text, score) in enumerate(results)` builds chunk records carrying the
source memory name and the 1-based in-source rank. -/
def tagResults (name : Str) : List (Str × ℚ) → Nat → List Chunk
  | [], _ => []
  | (t, sc) :: rest, i => ⟨t, sc, name, i + 1⟩ :: tagResults name rest (i + 1)

/-- The fan-out loop of `retrieve_context_node` over the registry: a source
whose search raises contributes nothing and the loop continues with the next
source. -/
def fanOutList (q : Str) : List (Str × (Str → Except Str (List (Str × ℚ)))) → List Chunk
  | [] => []
  | (name, search) :: rest =>
    (match search q with
     | .ok results => tagResults name results 0
     | .error _ => []) ++ fanOutList q rest

/-- `retrieved_chunks.sort(key=lambda x: x.get("score", 0), reverse=True)`:
Python's sort is stable and `reverse=True` keeps ties in their original order,
so the result is the (unique) stable descending sort by score, embedded as
insertion sort. -/
def sortChunks (l : List Chunk) : List Chunk :=
  l.insertionSort (fun a b => b.score ≤ a.score)

/-- `retrieve_context_node`. -/
def retrieve_context_node (env : Env) (st : ConversationState) : ConversationState :=
  if env.memories.isEmpty then
    { st with context := [], retrieved_chunks := [],
              processing_status := str "no_memories" }
  else
    let sorted := sortChunks (fanOutList st.query env.memories)
    { st with retrieved_chunks := sorted.take 10,
              context := (sorted.take 5).map (fun c => c.text),
              processing_status := str "context_retrieved" }

/-- One enumerated, labelled block of `assemble_context_node`. -/
def contextPart (i : Nat) (ch : Chunk) : Str :=
  str "[Context " ++ natStr i ++ str "] (Relevance: " ++ formatQ 3 ch.score ++
    str ", Source: " ++ ch.source_memory ++ str ")\n" ++ ch.text

def assembleParts : List Chunk → Nat → List Str
  | [], _ => []
  | ch :: rest, i => contextPart i ch :: assembleParts rest (i + 1)

/-- `assemble_context_node`. -/
def assemble_context_node (st : ConversationState) : ConversationState :=
  if st.retrieved_chunks.isEmpty then
    { st with context := [], processing_status := str "no_context" }
  else
    { st with
        context := [List.intercalate (str "\n\n") (assembleParts (st.retrieved_chunks.take 5) 1)],
        processing_status := str "context_assembled" }

/-- The prompt built by `generate_response_node` when no context is
available. -/
def noContextPrompt (q : Str) : Str :=
  str "The user asked: \"" ++ q ++
    str "\"\n\nHowever, no relevant context was found in the knowledge base. Please provide a helpful response explaining that no relevant information was found and suggest how they might:\n\n1. Add relevant documents to the knowledge base\n2. Refine their query to be more specific\n3. Use different keywords\n\nBe polite and helpful."

/-- The prompt built by `generate_response_node` from assembled context. -/
def contextPrompt (context : List Str) (q : Str) : Str :=
  str "Based on the following context from the knowledge base, please answer the user's question comprehensively and accurately.\n\n**Context:**\n" ++
    List.intercalate (str "\n\n") context ++
    str "\n\n**User Question:** \"" ++ q ++
    str "\"\n\n**Instructions:**\n- Provide a comprehensive answer based on the context provided\n- If the context doesn't fully answer the question, acknowledge this limitation\n- Use information only from the provided context\n- Be specific and cite relevant details from the context\n- If multiple sources provide different perspectives, mention this\n\nPlease provide your response:"

/-- `generate_response_node`.  The Python code does
`messages = state.get("messages", [])` — an alias of the state's list — and
then `messages.append(HumanMessage(...))` *before* calling the model, mutating
that shared list in place.  Consequently the prompt turn is part of
`state["messages"]` in both outcomes: on success the node additionally
reassigns `state["messages"] = messages + [AIMessage(response)]`; on failure
the `except` branch does not reassign the key, but the in-place append has
already happened, which the model reflects by keeping the appended prompt. -/
def generate_response_node (env : Env) (st : ConversationState) : ConversationState :=
  let prompt :=
    if st.context.isEmpty then noContextPrompt st.query
    else contextPrompt st.context st.query
  let messages := st.messages ++ [HumanMessage prompt]
  match env.llm messages with
  | .ok response =>
    { st with response := response,
              messages := messages ++ [AIMessage response],
              processing_status := str "response_generated" }
  | .error e =>
    { st with messages := messages,
              response := str "❌ Error generating response: " ++ e,
              processing_status := str "generation_error",
              error_message := some e }

/-- The `list`/`show` branch of `manage_memory_node`.  A registered memory
whose video file is missing contributes no line (the Python loop appends
nothing in that case); the per-entry `except` branch is unreachable because
the stat read is modelled as total. -/
def listMemoriesResponse (env : Env) : Str :=
  if env.memories.isEmpty then
    str "📁 No memory stores currently loaded.\n\n💡 To get started:\n• Ingest documents with: `Add \"document.pdf\" to memory`"
  else
    str "📁 **Active Memory Stores:**\n" ++
      List.intercalate (str "\n")
        (env.memories.filterMap (fun m =>
          let video := env.storagePath ++ str "/" ++ m.1 ++ str ".mp4"
          if env.pathExists video then
            some (str "• **" ++ m.1 ++ str "**: " ++
              formatQ 1 (env.videoSizeMB video) ++ str " MB")
          else none))

/-- The `stats` branch of `manage_memory_node`: aggregates by re-scanning the
storage directory (`glob("*.mp4")`), not the registry. -/
def statsResponse (env : Env) : Str :=
  if env.memories.isEmpty then
    str "📊 No memory statistics available - no memories loaded."
  else
    str "📊 **Memory Statistics:**\n\n🎯 **Overview:**\n• Total memory stores: " ++
      natStr env.memories.length ++
      str "\n• Total storage size: " ++
      formatQ 1 ((env.mp4Files.map env.videoSizeMB).sum) ++
      str " MB\n• Storage location: " ++ env.storagePath ++
      str "\n\n💾 **Storage Efficiency:**\n• Video-based compression provides 10x efficiency vs traditional databases\n• Each memory can store millions of text chunks\n• Offline-first design - no internet required for search"

def manageHelpMsg : Str :=
  str "🛠️ **Memory Management Commands:**\n\n**View Information:**\n• `list memories` - Show active memory stores\n• `show statistics` - Display detailed statistics\n\n**Usage:**\n• Ask questions to search across all loaded memories\n• Add documents with: `ingest \"file.pdf\"`\n\n**Tips:**\n• Memories persist between sessions\n• Video files can be copied and shared\n• Search works across all loaded memories simultaneously"

/-- `manage_memory_node`. -/
def manage_memory_node (env : Env) (st : ConversationState) : ConversationState :=
  let q := pyLower st.query
  let response :=
    if containsSub (str "list") q || containsSub (str "show") q then
      listMemoriesResponse env
    else if containsSub (str "stats") q || containsSub (str "statistics") q then
      statsResponse env
    else manageHelpMsg
  { st with response := response, processing_status := str "memory_managed" }

/-- The fixed renderings of `handle_errors_node`, looked up by
`status.split(":")[0]` with a generic fallback. -/
def errorBaseResponse (key : Str) : Str :=
  if key = str "analysis_error" then
    str "❌ I encountered an error analyzing your query. Please try rephrasing your request."
  else if key = str "ingestion_error" then
    str "❌ There was an error processing your documents. Please check the file paths and formats."
  else if key = str "retrieval_error" then
    str "❌ I couldn't search the knowledge base properly. Please try a different query."
  else if key = str "generation_error" then
    str "❌ I encountered an error generating a response. Please try again."
  else if key = str "no_memories" then
    str "💡 No memory stores are currently loaded. Please ingest some documents first using: `Add \"document.pdf\" to memory`"
  else if key = str "no_context" then
    str "🔍 No relevant information found for your query. Try:\n• Using different keywords\n• Adding relevant documents to memory\n• Being more specific in your question"
  else
    str "❌ An unexpected error occurred. Please try again."

/-- `handle_errors_node`. -/
def handle_errors_node (st : ConversationState) : ConversationState :=
  let key := st.processing_status.takeWhile (fun c => c ≠ ':')
  let base := errorBaseResponse key
  let response :=
    match st.error_message with
    | some em =>
      if !em.isEmpty && containsSub (str "debug") (pyLower st.query) then
        base ++ str "\n\n**Debug info:** " ++ em
      else base
    | none => base
  { st with response := response, processing_status := str "error_handled" }

/-! ## The state machine (`agent._build_graph`, `agent.query`) -/

inductive GraphNode
  | query_analyzer
  | document_ingestor
  | semantic_retriever
  | context_assembler
  | response_generator
  | memory_manager
  | error_handler
  | terminal
deriving DecidableEq, Repr

/-- The map of `add_conditional_edges`: the four route names.  `route_query`
only ever returns one of them, so the `terminal` fallback is unreachable. -/
def nodeOfName (n : Str) : GraphNode :=
  if n = str "document_ingestor" then .document_ingestor
  else if n = str "semantic_retriever" then .semantic_retriever
  else if n = str "memory_manager" then .memory_manager
  else if n = str "error_handler" then .error_handler
  else .terminal

def nodeAction (env : Env) : GraphNode → ConversationState → ConversationState
  | .query_analyzer => analyze_query_node
  | .document_ingestor => ingest_documents_node env
  | .semantic_retriever => retrieve_context_node env
  | .context_assembler => assemble_context_node
  | .response_generator => generate_response_node env
  | .memory_manager => manage_memory_node env
  | .error_handler => handle_errors_node
  | .terminal => id

/-- The edges added by `_build_graph`: the conditional edges out of the
analyzer, the unconditional `add_edge` calls everywhere else (each of
`document_ingestor`, `response_generator`, `memory_manager` and
`error_handler` goes straight to `END`). -/
def successor (st : ConversationState) : GraphNode → GraphNode
  | .query_analyzer => nodeOfName (route_query st)
  | .document_ingestor => .terminal
  | .semantic_retriever => .context_assembler
  | .context_assembler => .response_generator
  | .response_generator => .terminal
  | .memory_manager => .terminal
  | .error_handler => .terminal
  | .terminal => .terminal

/-- Fuel-indexed execution of the compiled graph, recording the visited nodes;
the conditional edge is taken on the state *after* the analyzer ran. -/
def runFrom (env : Env) : Nat → GraphNode → ConversationState → ConversationState × List GraphNode
  | 0, _, st => (st, [])
  | _ + 1, .terminal, st => (st, [])
  | fuel + 1, n, st =>
    let st' := nodeAction env n st
    let r := runFrom env fuel (successor st' n) st'
    (r.1, n :: r.2)

/-- One `app.ainvoke` run from the entry point; six units of fuel strictly
exceed the longest path (analyzer, retriever, assembler, generator). -/
def runGraph (env : Env) (st : ConversationState) : ConversationState × List GraphNode :=
  runFrom env 6 .query_analyzer st

/-- The initial state prepared by `agent.query`. -/
def initialState (messages : List Message) (userInput : Str) (sessionId : Str) :
    ConversationState where
  messages := messages
  query := userInput
  context := []
  retrieved_chunks := []
  response := str ""
  intent := str ""
  processing_status := str "initialized"
  session_id := sessionId
  memory_paths := none
  error_message := none

/-- `agent.query`: run the graph and return the response together with the
session's message list after the run (`self.session_data[sid]["messages"] =
result["messages"]`; the key is always present). -/
def agentQuery (env : Env) (sessionMessages : List Message) (userInput : Str)
    (sessionId : Str) : Str × List Message :=
  let r := runGraph env (initialState sessionMessages userInput sessionId)
  (r.1.response, r.1.messages)

/-! ## Theorems -/

/-! ### Retrieval merge: stable descending sort (C5), source isolation (C6) -/

instance : IsTotal Chunk (fun a b => b.score ≤ a.score) :=
  ⟨fun a b => le_total b.score a.score⟩

instance : IsTrans Chunk (fun a b => b.score ≤ a.score) :=
  ⟨fun _ _ _ h1 h2 => le_trans h2 h1⟩

lemma sortChunks_sorted (l : List Chunk) :
    List.Pairwise (fun a b => b.score ≤ a.score) (sortChunks l) :=
  List.sorted_insertionSort _ l

lemma sortChunks_perm (l : List Chunk) : List.Perm (sortChunks l) l :=
  List.perm_insertionSort _ l

lemma filter_orderedInsert (sc : ℚ) (c : Chunk) (l : List Chunk) :
    (List.orderedInsert (fun a b => b.score ≤ a.score) c l).filter
        (fun x => decide (x.score = sc)) =
      if c.score = sc then
        c :: l.filter (fun x => decide (x.score = sc))
      else l.filter (fun x => decide (x.score = sc)) := by
  induction l with
  | nil =>
    by_cases h : c.score = sc <;> simp [List.orderedInsert, List.filter, h]
  | cons x xs ih =>
    simp only [List.orderedInsert]
    by_cases hr : x.score ≤ c.score
    · rw [if_pos hr]
      by_cases h : c.score = sc <;> by_cases hx : x.score = sc <;>
        simp [List.filter, h, hx]
    · rw [if_neg hr]
      have hlt : c.score < x.score := lt_of_not_le hr
      by_cases hx : x.score = sc
      · have hc : ¬ c.score = sc := fun hcs => absurd (hcs.trans hx.symm) (ne_of_lt hlt)
        simp [List.filter, hx, hc, ih]
      · by_cases h : c.score = sc <;> simp [List.filter, hx, h, ih]

/-- Stability of the merge sort step: for every score value, the chunks
carrying that score appear in the sorted list exactly in their original
order. -/
lemma sortChunks_stable (sc : ℚ) (l : List Chunk) :
    (sortChunks l).filter (fun x => decide (x.score = sc)) =
      l.filter (fun x => decide (x.score = sc)) := by
  induction l with
  | nil => rfl
  | cons x xs ih =>
    have hstep : sortChunks (x :: xs) =
        List.orderedInsert (fun a b => b.score ≤ a.score) x (sortChunks xs) := rfl
    rw [hstep, filter_orderedInsert, ih]
    by_cases h : x.score = sc <;> simp [List.filter, h]

lemma tagResults_get? (name : Str) (rs : List (Str × ℚ)) (k i : Nat) :
    (tagResults name rs k).get? i =
      (rs.get? i).map (fun p => ⟨p.1, p.2, name, k + i + 1⟩) := by
  induction rs generalizing k i with
  | nil => simp [tagResults]
  | cons p rest ih =>
    cases i with
    | zero => simp [tagResults]
    | succ j =>
      simpa [tagResults, Nat.add_assoc, Nat.add_comm 1 j] using ih (k + 1) j

lemma fanOutList_append (q : Str) (l₁ l₂ : List (Str × (Str → Except Str (List (Str × ℚ))))) :
    fanOutList q (l₁ ++ l₂) = fanOutList q l₁ ++ fanOutList q l₂ := by
  induction l₁ with
  | nil => rfl
  | cons m rest ih => cases m; simp [fanOutList, ih]

lemma mem_fanOutList_of_ok (q : Str) (ms : List (Str × (Str → Except Str (List (Str × ℚ)))))
    (nm : Str) (f : Str → Except Str (List (Str × ℚ))) (rs : List (Str × ℚ))
    (hm : (nm, f) ∈ ms) (hok : f q = Except.ok rs) :
    ∀ c ∈ tagResults nm rs 0, c ∈ fanOutList q ms := by
  intro c hc
  induction ms with
  | nil => cases hm
  | cons m rest ih =>
    rcases List.mem_cons.mp hm with h | h
    · cases m
      cases h
      simp [fanOutList, hok]
      exact Or.inl hc
    · cases m
      simp only [fanOutList, List.mem_append]
      exact Or.inr (ih h)

/-- C5: For any combination of per-source (text, score) result lists, the
merged retrieval list is stable-sorted descending by score (ties keep original
per-source insertion order), each chunk is tagged with its source name and
1-based in-source rank, the merged list is truncated to at most 10 chunks, and
at most the top 5 are taken as context for assembly. -/
theorem merge_stable_sorted_tagged_truncated (env : Env) (st : ConversationState)
    (hne : ¬ env.memories.isEmpty = true) :
    (∀ name search, (name, search) ∈ env.memories →
      ∀ results, search st.query = Except.ok results →
        ∀ i, (hi : i < results.length) →
          (⟨(results.get ⟨i, hi⟩).1, (results.get ⟨i, hi⟩).2, name, i + 1⟩ : Chunk) ∈
            fanOutList st.query env.memories) ∧
    List.Pairwise (fun a b => b.score ≤ a.score)
      (sortChunks (fanOutList st.query env.memories)) ∧
    List.Perm (sortChunks (fanOutList st.query env.memories)) (fanOutList st.query env.memories) ∧
    (∀ sc : ℚ,
      (sortChunks (fanOutList st.query env.memories)).filter (fun c => decide (c.score = sc)) =
        (fanOutList st.query env.memories).filter (fun c => decide (c.score = sc))) ∧
    (retrieve_context_node env st).retrieved_chunks =
      (sortChunks (fanOutList st.query env.memories)).take 10 ∧
    (retrieve_context_node env st).retrieved_chunks.length ≤ 10 ∧
    List.Pairwise (fun a b => b.score ≤ a.score)
      (retrieve_context_node env st).retrieved_chunks ∧
    (retrieve_context_node env st).context =
      ((retrieve_context_node env st).retrieved_chunks.take 5).map (fun c => c.text) := by
  have hnode :
      (retrieve_context_node env st).retrieved_chunks =
        (sortChunks (fanOutList st.query env.memories)).take 10 ∧
      (retrieve_context_node env st).context =
        ((sortChunks (fanOutList st.query env.memories)).take 5).map (fun c => c.text) := by
    simp [retrieve_context_node, hne]
  refine ⟨?_, sortChunks_sorted _, sortChunks_perm _, fun sc => sortChunks_stable sc _,
    hnode.1, ?_, ?_, ?_⟩
  · intro name search hm results hok i hi
    have hmem : (⟨(results.get ⟨i, hi⟩).1, (results.get ⟨i, hi⟩).2, name, i + 1⟩ : Chunk) ∈
        tagResults name results 0 := by
      have hg : (tagResults name results 0).get? i =
          some ⟨(results.get ⟨i, hi⟩).1, (results.get ⟨i, hi⟩).2, name, i + 1⟩ := by
        rw [tagResults_get?]
        rw [List.get?_eq_get hi]
        simp
      exact List.get?_mem hg
    exact mem_fanOutList_of_ok st.query env.memories name search results hm hok _ hmem
  · rw [hnode.1]
    simpa using List.length_take_le 10 _
  · rw [hnode.1]
    exact (sortChunks_sorted _).sublist (List.take_sublist _ _)
  · rw [hnode.1, hnode.2, List.take_take]
    norm_num

/-- A fixed two-source environment used to instantiate the retrieval-merge
theorem on concrete data (a score tie across the two sources included). -/
def envTwoSources : Env where
  pathExists := fun _ => false
  pathStr := id
  addPdf := fun _ => Except.error (str "x")
  addEpub := fun _ => Except.error (str "x")
  addText := fun _ => Except.error (str "x")
  buildVideo := fun _ _ => Except.error (str "x")
  llm := fun _ => Except.ok (str "Hello.")
  memories :=
    [(str "A", fun _ => Except.ok [(str "t1", (9 : ℚ)/10), (str "t2", (1 : ℚ)/2)]),
     (str "C", fun _ => Except.ok [(str "u1", (7 : ℚ)/10), (str "u2", (9 : ℚ)/10)])]
  scanDirectory := fun _ => []
  videoSizeMB := fun _ => 0
  mp4Files := []
  storagePath := str "./memories"
  timestamp := str "20260101_000000"

/-- Closed instance of the retrieval-merge theorem: two sources, a score tie
across sources, all hypotheses discharged on concrete data. -/
theorem merge_stable_sorted_tagged_truncated_witness :
    (∀ name search, (name, search) ∈ envTwoSources.memories →
      ∀ results, search (initialState [] (str "q") (str "d")).query = Except.ok results →
        ∀ i, (hi : i < results.length) →
          (⟨(results.get ⟨i, hi⟩).1, (results.get ⟨i, hi⟩).2, name, i + 1⟩ : Chunk) ∈
            fanOutList (initialState [] (str "q") (str "d")).query envTwoSources.memories) ∧
    List.Pairwise (fun a b => b.score ≤ a.score)
      (sortChunks (fanOutList (initialState [] (str "q") (str "d")).query envTwoSources.memories)) ∧
    List.Perm
      (sortChunks (fanOutList (initialState [] (str "q") (str "d")).query envTwoSources.memories))
      (fanOutList (initialState [] (str "q") (str "d")).query envTwoSources.memories) ∧
    (∀ sc : ℚ,
      (sortChunks (fanOutList (initialState [] (str "q") (str "d")).query envTwoSources.memories)).filter
          (fun c => decide (c.score = sc)) =
        (fanOutList (initialState [] (str "q") (str "d")).query envTwoSources.memories).filter
          (fun c => decide (c.score = sc))) ∧
    (retrieve_context_node envTwoSources (initialState [] (str "q") (str "d"))).retrieved_chunks =
      (sortChunks (fanOutList (initialState [] (str "q") (str "d")).query envTwoSources.memories)).take 10 ∧
    (retrieve_context_node envTwoSources (initialState [] (str "q") (str "d"))).retrieved_chunks.length ≤ 10 ∧
    List.Pairwise (fun a b => b.score ≤ a.score)
      (retrieve_context_node envTwoSources (initialState [] (str "q") (str "d"))).retrieved_chunks ∧
    (retrieve_context_node envTwoSources (initialState [] (str "q") (str "d"))).context =
      ((retrieve_context_node envTwoSources (initialState [] (str "q") (str "d"))).retrieved_chunks.take 5).map
        (fun c => c.text) :=
  merge_stable_sorted_tagged_truncated envTwoSources (initialState [] (str "q") (str "d"))
    (by decide)

/-- C6: a handle whose search raises during the retrieval fan-out is skipped
and never aborts the fan-out: the merged list is exactly the one obtained
without that handle, and every other handle's (tagged) results still appear in
the merged list. -/
theorem fanout_isolates_failing_source (q : Str)
    (ms : List (Str × (Str → Except Str (List (Str × ℚ)))))
    (name : Str) (search : Str → Except Str (List (Str × ℚ))) (e : Str)
    (hfail : search q = Except.error e) :
    (∀ pre post, ms = pre ++ (name, search) :: post →
      fanOutList q ms = fanOutList q (pre ++ post)) ∧
    (∀ nm f rs, (nm, f) ∈ ms → f q = Except.ok rs →
      ∀ c ∈ tagResults nm rs 0, c ∈ fanOutList q ms) := by
  constructor
  · intro pre post hdecomp
    subst hdecomp
    rw [fanOutList_append, fanOutList_append]
    simp [fanOutList, hfail]
  · intro nm f rs hm hok c hc
    exact mem_fanOutList_of_ok q ms nm f rs hm hok c hc

/-- The three-source registry of the failure scenario: `B` raises during
search, `A` and `C` answer. -/
def threeSourcesOneFailing : List (Str × (Str → Except Str (List (Str × ℚ)))) :=
  [(str "A", fun _ => Except.ok [(str "t1", (9 : ℚ))]),
   (str "B", fun _ => Except.error (str "bad")),
   (str "C", fun _ => Except.ok [(str "u1", (7 : ℚ))])]

/-- Closed instance of the fan-out isolation theorem: one of three registered
handles raises; the merged list equals the two-source merge, the two healthy
sources' chunks are still members, and the merged list is non-empty. -/
theorem fanout_isolates_failing_source_witness :
    ((∀ pre post, threeSourcesOneFailing =
        pre ++ (str "B", (fun _ => Except.error (str "bad") :
          Str → Except Str (List (Str × ℚ)))) :: post →
      fanOutList (str "q") threeSourcesOneFailing = fanOutList (str "q") (pre ++ post)) ∧
    (∀ nm f rs, (nm, f) ∈ threeSourcesOneFailing → f (str "q") = Except.ok rs →
      ∀ c ∈ tagResults nm rs 0, c ∈ fanOutList (str "q") threeSourcesOneFailing)) ∧
    fanOutList (str "q") threeSourcesOneFailing =
      [⟨str "t1", (9 : ℚ), str "A", 1⟩, ⟨str "u1", (7 : ℚ), str "C", 1⟩] ∧
    fanOutList (str "q") threeSourcesOneFailing ≠ [] :=
  ⟨fanout_isolates_failing_source (str "q") threeSourcesOneFailing (str "B") _ (str "bad") rfl,
   by decide, by decide⟩

/-! ### Frame property of the non-generating branches (C10) -/

lemma analyze_preserves_messages (st : ConversationState) :
    (analyze_query_node st).messages = st.messages := rfl

lemma ingest_preserves_messages (env : Env) (st : ConversationState) :
    (ingest_documents_node env st).messages = st.messages := by
  simp only [ingest_documents_node]
  repeat' split
  all_goals rfl

lemma manage_preserves_messages (env : Env) (st : ConversationState) :
    (manage_memory_node env st).messages = st.messages := rfl

lemma handle_errors_preserves_messages (st : ConversationState) :
    (handle_errors_node st).messages = st.messages := rfl

/-- C10: a request routed to the ingestion, memory-management or error-handler
branch leaves the session's history untouched: the message list returned by
`query()` is exactly the one passed in. -/
theorem non_generating_branches_preserve_history (env : Env)
    (sessionMessages : List Message) (userInput sessionId : Str)
    (h : nodeOfName (route_query (analyze_query_node
          (initialState sessionMessages userInput sessionId))) =
            GraphNode.document_ingestor ∨
        nodeOfName (route_query (analyze_query_node
          (initialState sessionMessages userInput sessionId))) =
            GraphNode.memory_manager ∨
        nodeOfName (route_query (analyze_query_node
          (initialState sessionMessages userInput sessionId))) =
            GraphNode.error_handler) :
    (agentQuery env sessionMessages userInput sessionId).2 = sessionMessages := by
  have hinit : (initialState sessionMessages userInput sessionId).messages =
      sessionMessages := rfl
  rcases h with h | h | h <;>
    simp [agentQuery, runGraph, runFrom, nodeAction, successor, h,
      ingest_preserves_messages, manage_preserves_messages,
      handle_errors_preserves_messages, analyze_preserves_messages, hinit]

/-- Closed instance of the frame theorem: `list memories` routes to the memory
manager and leaves a non-empty session history untouched. -/
theorem non_generating_branches_preserve_history_witness :
    (nodeOfName (route_query (analyze_query_node
        (initialState [HumanMessage (str "hi"), AIMessage (str "yo")]
          (str "list memories") (str "default")))) =
          GraphNode.document_ingestor ∨
      nodeOfName (route_query (analyze_query_node
        (initialState [HumanMessage (str "hi"), AIMessage (str "yo")]
          (str "list memories") (str "default")))) =
          GraphNode.memory_manager ∨
      nodeOfName (route_query (analyze_query_node
        (initialState [HumanMessage (str "hi"), AIMessage (str "yo")]
          (str "list memories") (str "default")))) =
          GraphNode.error_handler) ∧
    (agentQuery envTwoSources [HumanMessage (str "hi"), AIMessage (str "yo")]
        (str "list memories") (str "default")).2 =
      [HumanMessage (str "hi"), AIMessage (str "yo")] :=
  ⟨Or.inr (Or.inl (by decide)),
   non_generating_branches_preserve_history envTwoSources
     [HumanMessage (str "hi"), AIMessage (str "yo")] (str "list memories") (str "default")
     (Or.inr (Or.inl (by decide)))⟩

/-! ### Error routing (C1) and the zero-memories path (C2) -/

/-- An environment with an empty handle registry and an LLM that always
answers `Hello.`. -/
def envNoMemories : Env where
  pathExists := fun _ => false
  pathStr := id
  addPdf := fun _ => Except.error (str "x")
  addEpub := fun _ => Except.error (str "x")
  addText := fun _ => Except.error (str "x")
  buildVideo := fun _ _ => Except.error (str "x")
  llm := fun _ => Except.ok (str "Hello.")
  memories := []
  scanDirectory := fun _ => []
  videoSizeMB := fun _ => 0
  mp4Files := []
  storagePath := str "./memories"
  timestamp := str "20260101_000000"

/-- C1 (falsified on the code): a run of the chat query `hm` with zero
registered memories leaves the error-tagged status `no_memories` at the
retrieval node, yet the terminal error handler is visited zero times — not
exactly once — before the run terminates: the graph wires the retriever into
the assembler/generator and every node other than the analyzer
unconditionally into `END`, so only the routing-level `"error"` intent can
reach `error_handler`. -/
theorem error_status_bypasses_error_handler :
    (retrieve_context_node envNoMemories
        (analyze_query_node (initialState [] (str "hm") (str "default")))).processing_status =
      str "no_memories" ∧
    (runGraph envNoMemories (initialState [] (str "hm") (str "default"))).2.count
        GraphNode.error_handler = 0 ∧
    (runGraph envNoMemories (initialState [] (str "hm") (str "default"))).2 =
      [GraphNode.query_analyzer, GraphNode.semantic_retriever,
       GraphNode.context_assembler, GraphNode.response_generator] ∧
    (runGraph envNoMemories (initialState [] (str "hm") (str "default"))).1.processing_status =
      str "response_generated" := by
  refine ⟨by decide, by decide, by decide, by decide⟩

/-- C2, counterexample: for the scenario query `What is machine learning?`
with zero registered handles, the *final* processing status of the run is not
`no_memories` — the assembler overwrites it with `no_context` and the
generator with `response_generated` — and the returned response is whatever
the model answered (`Hello.`), not a message instructing the user to ingest
documents. -/
theorem no_memories_final_status_counterexample :
    (parse_query_intent (str "What is machine learning?")).intent = str "search" ∧
    (runGraph envNoMemories
        (initialState [] (str "What is machine learning?") (str "default"))).1.processing_status ≠
      str "no_memories" ∧
    (runGraph envNoMemories
        (initialState [] (str "What is machine learning?") (str "default"))).1.processing_status =
      str "response_generated" ∧
    (runGraph envNoMemories
        (initialState [] (str "What is machine learning?") (str "default"))).1.response =
      str "Hello." := by
  refine ⟨by decide, by decide, by decide, by decide⟩

lemma containsSub_append_left (n a b : Str) (h : containsSub n b = true) :
    containsSub n (a ++ b) = true := by
  induction a with
  | nil => simpa using h
  | cons c a ih => simp [containsSub, ih]

lemma route_query_search_chat (st : ConversationState)
    (h : st.intent = str "search" ∨ st.intent = str "chat") :
    route_query st = str "semantic_retriever" := by
  rcases h with h | h <;> (unfold route_query; rw [h]; decide)

/-- C2, amended: with zero registered handles, a search/chat query leaves the
distinct status `no_memories` (never the search-failure status
`retrieval_error`) at the retrieval node, with empty context; the run then
proceeds through the assembler and the generator, so when the model call
succeeds the final status is `response_generated` and the final response is
the model's answer to the no-context prompt — a prompt that asks the model to
suggest adding relevant documents to the knowledge base. -/
theorem no_memories_status_and_prompt (env : Env) (messages : List Message)
    (q sid r : Str)
    (hmem : env.memories = [])
    (hintent : (parse_query_intent q).intent = str "search" ∨
      (parse_query_intent q).intent = str "chat")
    (hllm : ∀ ms, env.llm ms = Except.ok r) :
    (retrieve_context_node env
        (analyze_query_node (initialState messages q sid))).processing_status =
      str "no_memories" ∧
    (retrieve_context_node env
        (analyze_query_node (initialState messages q sid))).processing_status ≠
      str "retrieval_error" ∧
    (retrieve_context_node env
        (analyze_query_node (initialState messages q sid))).context = [] ∧
    containsSub (str "Add relevant documents to the knowledge base")
      (noContextPrompt q) = true ∧
    (runGraph env (initialState messages q sid)).1.processing_status =
      str "response_generated" ∧
    (runGraph env (initialState messages q sid)).1.messages =
      messages ++ [HumanMessage (noContextPrompt q), AIMessage r] ∧
    (runGraph env (initialState messages q sid)).1.response = r := by
  have hisempty : env.memories.isEmpty = true := by rw [hmem]; rfl
  have hintent' : (analyze_query_node (initialState messages q sid)).intent =
      (parse_query_intent q).intent := rfl
  have hroute : route_query (analyze_query_node (initialState messages q sid)) =
      str "semantic_retriever" := by
    apply route_query_search_chat
    rw [hintent']
    exact hintent
  have hcontains : containsSub (str "Add relevant documents to the knowledge base")
      (noContextPrompt q) = true := by
    unfold noContextPrompt
    apply containsSub_append_left
    decide
  have hretr : retrieve_context_node env (analyze_query_node (initialState messages q sid)) =
      { analyze_query_node (initialState messages q sid) with
          context := [], retrieved_chunks := [],
          processing_status := str "no_memories" } := by
    simp [retrieve_context_node, hisempty]
  have hstat : (retrieve_context_node env
      (analyze_query_node (initialState messages q sid))).processing_status =
        str "no_memories" := by rw [hretr]
  have hctx : (retrieve_context_node env
      (analyze_query_node (initialState messages q sid))).context = [] := by rw [hretr]
  refine ⟨hstat, by rw [hstat]; decide, hctx, hcontains, ?_, ?_, ?_⟩
  all_goals
    simp only [runGraph, runFrom, nodeAction, successor, hroute]
    simp only [show nodeOfName (str "semantic_retriever") = GraphNode.semantic_retriever from rfl,
      hretr]
    simp only [assemble_context_node, generate_response_node, List.isEmpty_nil, if_pos rfl]
    simp [hllm, analyze_query_node, initialState]

/-- Closed instance of the amended zero-memories theorem at the scenario
query. -/
theorem no_memories_status_and_prompt_witness :
    (retrieve_context_node envNoMemories
        (analyze_query_node
          (initialState [] (str "What is machine learning?") (str "default")))).processing_status =
      str "no_memories" ∧
    (retrieve_context_node envNoMemories
        (analyze_query_node
          (initialState [] (str "What is machine learning?") (str "default")))).processing_status ≠
      str "retrieval_error" ∧
    (retrieve_context_node envNoMemories
        (analyze_query_node
          (initialState [] (str "What is machine learning?") (str "default")))).context = [] ∧
    containsSub (str "Add relevant documents to the knowledge base")
      (noContextPrompt (str "What is machine learning?")) = true ∧
    (runGraph envNoMemories
        (initialState [] (str "What is machine learning?") (str "default"))).1.processing_status =
      str "response_generated" ∧
    (runGraph envNoMemories
        (initialState [] (str "What is machine learning?") (str "default"))).1.messages =
      [] ++ [HumanMessage (noContextPrompt (str "What is machine learning?")),
             AIMessage (str "Hello.")] ∧
    (runGraph envNoMemories
        (initialState [] (str "What is machine learning?") (str "default"))).1.response =
      str "Hello." :=
  no_memories_status_and_prompt envNoMemories [] (str "What is machine learning?")
    (str "default") (str "Hello.") rfl (Or.inl (by decide)) (fun _ => rfl)

/-! ### Generation failure and conversation history (C3) -/

/-- An environment whose generative collaborator always raises. -/
def envLLMRaises : Env where
  pathExists := fun _ => false
  pathStr := id
  addPdf := fun _ => Except.error (str "x")
  addEpub := fun _ => Except.error (str "x")
  addText := fun _ => Except.error (str "x")
  buildVideo := fun _ _ => Except.error (str "x")
  llm := fun _ => Except.error (str "boom")
  memories := []
  scanDirectory := fun _ => []
  videoSizeMB := fun _ => 0
  mp4Files := []
  storagePath := str "./memories"
  timestamp := str "20260101_000000"

/-- C3 (falsified on the code): when the model call raises, the failure is
indeed converted into a user-facing failure message, but the conversation
history is *not* left as it was: `messages.append(HumanMessage(...))` mutates
the session's list in place before `llm.ainvoke` is awaited, so the
half-completed prompt turn stays recorded in the state's message list. -/
theorem generation_failure_mutates_history :
    (generate_response_node envLLMRaises
        (initialState [] (str "hi") (str "d"))).processing_status =
      str "generation_error" ∧
    (generate_response_node envLLMRaises
        (initialState [] (str "hi") (str "d"))).response =
      str "❌ Error generating response: boom" ∧
    (generate_response_node envLLMRaises
        (initialState [] (str "hi") (str "d"))).messages ≠
      (initialState [] (str "hi") (str "d")).messages ∧
    (generate_response_node envLLMRaises
        (initialState [] (str "hi") (str "d"))).messages =
      [HumanMessage (noContextPrompt (str "hi"))] := by
  refine ⟨by decide, by decide, by decide, by decide⟩

/-! ### Ingestion with no extractable content (C4) -/

/-- An environment in which `a.pdf` exists and is processed without error but
contributes zero chunks to the encoder. -/
def envEmptyPdf : Env where
  pathExists := fun p => p = str "a.pdf"
  pathStr := id
  addPdf := fun _ => Except.ok []
  addEpub := fun _ => Except.error (str "x")
  addText := fun _ => Except.error (str "x")
  buildVideo := fun _ _ => Except.error (str "x")
  llm := fun _ => Except.ok (str "Hello.")
  memories := []
  scanDirectory := fun _ => []
  videoSizeMB := fun _ => 0
  mp4Files := []
  storagePath := str "./memories"
  timestamp := str "20260101_000000"

/-- C4, counterexample: ingesting the existing but empty `a.pdf` produces zero
content units, and the resulting status is `"ingestion_complete"` — the very
success status the claim requires the no-content outcome to be distinct from
(the status assignment sits after the `if encoder.chunks:` / `else` block and
runs in both branches).  The response does report the failure and no handle is
registered. -/
theorem no_content_status_is_ingestion_complete :
    (ingest_documents_node envEmptyPdf
        (initialState [] (str "Ingest \"a.pdf\"") (str "default"))).processing_status =
      str "ingestion_complete" ∧
    (ingest_documents_node envEmptyPdf
        (initialState [] (str "Ingest \"a.pdf\"") (str "default"))).response =
      str "❌ No content could be extracted from the provided documents." ∧
    (ingest_documents_node envEmptyPdf
        (initialState [] (str "Ingest \"a.pdf\"") (str "default"))).memory_paths = none := by
  refine ⟨by decide, by decide, by decide⟩

lemma validate_file_paths_nil_of_valid_ne_nil (exists? : Str → Bool) (pathStr : Str → Str)
    (paths : List Str) (h : (validate_file_paths exists? pathStr paths).valid ≠ []) :
    paths ≠ [] := by
  intro hnil
  rw [hnil] at h
  exact h rfl

/-- C4, amended: an ingestion call whose validated paths produce zero
extractable content units reports the no-content failure response — a message
distinct from the discovery-failure (`no_documents`) and validation-failure
(`invalid_documents`) responses — and registers no memory handle; its
processing status, however, is the success status `"ingestion_complete"`
(distinct from `no_documents` and `invalid_documents`, but not a dedicated
no-content status). -/
theorem no_content_reported_without_registration (env : Env) (st : ConversationState)
    (hmp : st.memory_paths = none)
    (hvalid : (validate_file_paths env.pathExists env.pathStr
        (ingestPaths env st.query)).valid ≠ [])
    (hchunks : (processFiles env (validate_file_paths env.pathExists env.pathStr
        (ingestPaths env st.query)).valid).2.2 = []) :
    (ingest_documents_node env st).response =
      str "❌ No content could be extracted from the provided documents." ∧
    (ingest_documents_node env st).response ≠ noDocumentsMsg ∧
    (ingest_documents_node env st).processing_status = str "ingestion_complete" ∧
    (ingest_documents_node env st).processing_status ≠ str "no_documents" ∧
    (ingest_documents_node env st).processing_status ≠ str "invalid_documents" ∧
    (ingest_documents_node env st).memory_paths = none ∧
    wrapIngestRegisters env st = false := by
  have hpaths : (ingestPaths env st.query).isEmpty = false := by
    have := validate_file_paths_nil_of_valid_ne_nil env.pathExists env.pathStr
      (ingestPaths env st.query) hvalid
    exact List.isEmpty_eq_false.mpr this
  have hvalid' : (validate_file_paths env.pathExists env.pathStr
      (ingestPaths env st.query)).valid.isEmpty = false :=
    List.isEmpty_eq_false.mpr hvalid
  have hres : ingest_documents_node env st =
      { st with response := str "❌ No content could be extracted from the provided documents.",
                processing_status := str "ingestion_complete" } := by
    simp only [ingest_documents_node]
    rw [hpaths, hvalid', hchunks]
    simp
  have hresp : (ingest_documents_node env st).response =
      str "❌ No content could be extracted from the provided documents." := by rw [hres]
  have hstat : (ingest_documents_node env st).processing_status =
      str "ingestion_complete" := by rw [hres]
  have hmp2 : (ingest_documents_node env st).memory_paths = none := by rw [hres]; exact hmp
  refine ⟨hresp, by rw [hresp]; decide, hstat, by rw [hstat]; decide, by rw [hstat]; decide,
    hmp2, ?_⟩
  show (ingest_documents_node env st).memory_paths.isSome = false
  rw [hmp2]
  rfl

/-- Closed instance of the amended no-content theorem on the empty-pdf
environment. -/
theorem no_content_reported_without_registration_witness :
    (ingest_documents_node envEmptyPdf
        (initialState [] (str "Ingest \"a.pdf\"") (str "default"))).response =
      str "❌ No content could be extracted from the provided documents." ∧
    (ingest_documents_node envEmptyPdf
        (initialState [] (str "Ingest \"a.pdf\"") (str "default"))).response ≠ noDocumentsMsg ∧
    (ingest_documents_node envEmptyPdf
        (initialState [] (str "Ingest \"a.pdf\"") (str "default"))).processing_status =
      str "ingestion_complete" ∧
    (ingest_documents_node envEmptyPdf
        (initialState [] (str "Ingest \"a.pdf\"") (str "default"))).processing_status ≠
      str "no_documents" ∧
    (ingest_documents_node envEmptyPdf
        (initialState [] (str "Ingest \"a.pdf\"") (str "default"))).processing_status ≠
      str "invalid_documents" ∧
    (ingest_documents_node envEmptyPdf
        (initialState [] (str "Ingest \"a.pdf\"") (str "default"))).memory_paths = none ∧
    wrapIngestRegisters envEmptyPdf
      (initialState [] (str "Ingest \"a.pdf\"") (str "default")) = false :=
  no_content_reported_without_registration envEmptyPdf
    (initialState [] (str "Ingest \"a.pdf\"") (str "default"))
    rfl (by decide) (by decide)

/-! ### Path validation partition (C8) -/

/-- An environment-free restatement of the per-path test of
`validate_file_paths`, used to characterise the partition. -/
def pathIsValid' (exists? : Str → Bool) (p : Str) : Bool :=
  exists? p && supportedExtensions.contains (pyLower (pySuffix p))

/-- C8, counterexample: the outputs of `validate_file_paths` are not literally
a duplicate-free partition of the input.  A duplicated existing input is
recorded twice in `valid` (no deduplication), and a missing input appears in
`invalid` only in its tagged form `p ++ " (file not found)"`, so the union of
the two output lists differs from the input list. -/
theorem validate_partition_counterexample :
    ¬ (validate_file_paths (fun p => p = str "a.pdf") id
        [str "a.pdf", str "a.pdf"]).valid.Nodup ∧
    (validate_file_paths (fun p => p = str "a.pdf") id [str "nope.pdf"]).valid ++
        (validate_file_paths (fun p => p = str "a.pdf") id [str "nope.pdf"]).invalid ≠
      [str "nope.pdf"] ∧
    (validate_file_paths (fun p => p = str "a.pdf") id [str "nope.pdf"]).invalid =
      [str "nope.pdf (file not found)"] := by
  refine ⟨by decide, by decide, by decide⟩

/-- C8, amended: `validate_file_paths` places each input in exactly one of the
two output lists — recorded as its `pathlib` normalisation `str(Path(p))` when
it exists with a supported extension, and as the raw input tagged with the
reason otherwise — the two output lists are the images of the corresponding
filters of the input (so their lengths sum to the input length), and an output
list contains duplicates only when the input does. -/
theorem validate_partitions_every_input (exists? : Str → Bool) (pathStr : Str → Str)
    (paths : List Str) :
    (validate_file_paths exists? pathStr paths).valid =
      (paths.filter (fun p => pathIsValid' exists? p)).map pathStr ∧
    (validate_file_paths exists? pathStr paths).invalid =
      (paths.filter (fun p => !pathIsValid' exists? p)).map
        (fun p => p ++ (if exists? p then str " (unsupported format)"
          else str " (file not found)")) ∧
    (validate_file_paths exists? pathStr paths).valid.length +
        (validate_file_paths exists? pathStr paths).invalid.length = paths.length ∧
    (validate_file_paths exists? pathStr paths).supported_extensions =
      supportedExtensions := by
  induction paths with
  | nil => exact ⟨rfl, rfl, rfl, rfl⟩
  | cons p rest ih =>
    obtain ⟨ih1, ih2, ih3, ih4⟩ := ih
    by_cases he : exists? p = true
    · by_cases hs : supportedExtensions.contains (pyLower (pySuffix p)) = true
      · have hv : pathIsValid' exists? p = true := by
          simp only [pathIsValid', he, hs, Bool.and_self]
        have hstep : validate_file_paths exists? pathStr (p :: rest) =
            ⟨pathStr p :: (validate_file_paths exists? pathStr rest).valid,
             (validate_file_paths exists? pathStr rest).invalid,
             (validate_file_paths exists? pathStr rest).supported_extensions⟩ := by
          simp only [validate_file_paths]
          rw [if_pos he, if_pos hs]
        rw [hstep]
        refine ⟨?_, ?_, ?_, ?_⟩
        · simp [List.filter, hv, ih1]
        · simp [List.filter, hv, ih2]
        · simp only [List.length_cons]
          omega
        · exact ih4
      · have hs' : supportedExtensions.contains (pyLower (pySuffix p)) = false := by
          revert hs
          cases supportedExtensions.contains (pyLower (pySuffix p)) <;> simp
        have hv : pathIsValid' exists? p = false := by
          simp only [pathIsValid', he, hs', Bool.and_false, Bool.true_and]
        have hstep : validate_file_paths exists? pathStr (p :: rest) =
            ⟨(validate_file_paths exists? pathStr rest).valid,
             (p ++ str " (unsupported format)") ::
               (validate_file_paths exists? pathStr rest).invalid,
             (validate_file_paths exists? pathStr rest).supported_extensions⟩ := by
          simp only [validate_file_paths]
          rw [if_pos he, if_neg hs]
        rw [hstep]
        refine ⟨?_, ?_, ?_, ?_⟩
        · simp [List.filter, hv, ih1]
        · simp [List.filter, hv, ih2, he]
        · simp only [List.length_cons]
          omega
        · exact ih4
    · have he' : exists? p = false := by
        revert he
        cases exists? p <;> simp
      have hv : pathIsValid' exists? p = false := by
        simp only [pathIsValid', he', Bool.false_and]
      have hstep : validate_file_paths exists? pathStr (p :: rest) =
          ⟨(validate_file_paths exists? pathStr rest).valid,
           (p ++ str " (file not found)") ::
             (validate_file_paths exists? pathStr rest).invalid,
           (validate_file_paths exists? pathStr rest).supported_extensions⟩ := by
        simp only [validate_file_paths]
        rw [if_neg he]
      rw [hstep]
      refine ⟨?_, ?_, ?_, ?_⟩
      · simp [List.filter, hv, ih1]
      · simp [List.filter, hv, ih2, he']
      · simp only [List.length_cons]
        omega
      · exact ih4

/-- Closed instance of the partition characterisation on a mixed input. -/
theorem validate_partitions_every_input_witness :
    (validate_file_paths (fun p => p = str "a.pdf" || p = str "b.xyz") id
        [str "a.pdf", str "b.xyz", str "nope.txt"]).valid =
      (([str "a.pdf", str "b.xyz", str "nope.txt"].filter
          (fun p => pathIsValid' (fun p => p = str "a.pdf" || p = str "b.xyz") p)).map id) ∧
    (validate_file_paths (fun p => p = str "a.pdf" || p = str "b.xyz") id
        [str "a.pdf", str "b.xyz", str "nope.txt"]).invalid =
      (([str "a.pdf", str "b.xyz", str "nope.txt"].filter
          (fun p => !pathIsValid' (fun p => p = str "a.pdf" || p = str "b.xyz") p)).map
        (fun p => p ++ (if (p = str "a.pdf" || p = str "b.xyz") then str " (unsupported format)"
          else str " (file not found)"))) ∧
    (validate_file_paths (fun p => p = str "a.pdf" || p = str "b.xyz") id
        [str "a.pdf", str "b.xyz", str "nope.txt"]).valid.length +
      (validate_file_paths (fun p => p = str "a.pdf" || p = str "b.xyz") id
        [str "a.pdf", str "b.xyz", str "nope.txt"]).invalid.length = 3 ∧
    (validate_file_paths (fun p => p = str "a.pdf" || p = str "b.xyz") id
        [str "a.pdf", str "b.xyz", str "nope.txt"]).supported_extensions =
      supportedExtensions :=
  validate_partitions_every_input (fun p => p = str "a.pdf" || p = str "b.xyz") id
    [str "a.pdf", str "b.xyz", str "nope.txt"]

/-! ### Quoted extension tokens force the ingest intent (C7) -/

lemma scanQuoted_cons_none_quote (ok : Str → Bool) (q : Char) (l : Str) :
    scanQuoted ok q (q :: l) none = scanQuoted ok q l (some []) := by
  simp [scanQuoted]

lemma scanQuoted_cons_none_other (ok : Str → Bool) (q c : Char) (l : Str) (hc : c ≠ q) :
    scanQuoted ok q (c :: l) none = scanQuoted ok q l none := by
  simp [scanQuoted, hc]

lemma scanQuoted_cons_some_quote (ok : Str → Bool) (q : Char) (l acc : Str) :
    scanQuoted ok q (q :: l) (some acc) =
      if ok acc.reverse = true then acc.reverse :: scanQuoted ok q l none
      else scanQuoted ok q l (some []) := by
  simp [scanQuoted]

lemma scanQuoted_cons_some_other (ok : Str → Bool) (q c : Char) (l acc : Str)
    (hc : c ≠ q) :
    scanQuoted ok q (c :: l) (some acc) = scanQuoted ok q l (some (c :: acc)) := by
  simp [scanQuoted, hc]

lemma scanQuoted_inside (ok : Str → Bool) (q : Char) (content rest : Str)
    (hfree : ∀ x ∈ content, x ≠ q) :
    ∀ acc : Str,
      scanQuoted ok q (content ++ q :: rest) (some acc) =
        if ok (acc.reverse ++ content) = true then
          (acc.reverse ++ content) :: scanQuoted ok q rest none
        else scanQuoted ok q rest (some []) := by
  induction content with
  | nil => intro acc; simp [scanQuoted_cons_some_quote]
  | cons c content ih =>
    intro acc
    have hc : c ≠ q := hfree c (List.mem_cons_self _ _)
    have hrest : ∀ x ∈ content, x ≠ q := fun x hx => hfree x (List.mem_cons_of_mem _ hx)
    rw [List.cons_append, scanQuoted_cons_some_other ok q c _ acc hc, ih hrest (c :: acc)]
    simp [List.reverse_cons, List.append_assoc]

lemma scanQuoted_open (ok : Str → Bool) (q : Char) (content rest : Str)
    (hfree : ∀ x ∈ content, x ≠ q) (hok : ok content = true) :
    scanQuoted ok q (q :: (content ++ q :: rest)) none =
      content :: scanQuoted ok q rest none := by
  rw [scanQuoted_cons_none_quote, scanQuoted_inside ok q content rest hfree []]
  simp [hok]

lemma scanQuoted_ne_nil (ok : Str → Bool) (q : Char) (content b : Str)
    (hfree : ∀ x ∈ content, x ≠ q) (hok : ok content = true) :
    ∀ a : Str, scanQuoted ok q (a ++ q :: (content ++ q :: b)) none ≠ [] ∧
      ∀ acc, scanQuoted ok q (a ++ q :: (content ++ q :: b)) (some acc) ≠ [] := by
  intro a
  induction a with
  | nil =>
    rw [List.nil_append]
    constructor
    · rw [scanQuoted_open ok q content b hfree hok]
      exact List.cons_ne_nil _ _
    · intro acc
      rw [scanQuoted_cons_some_quote]
      by_cases hacc : ok acc.reverse = true
      · rw [if_pos hacc]
        exact List.cons_ne_nil _ _
      · rw [if_neg hacc, scanQuoted_inside ok q content b hfree []]
        simp only [List.reverse_nil, List.nil_append]
        rw [if_pos hok]
        exact List.cons_ne_nil _ _
  | cons c a ih =>
    rw [List.cons_append]
    by_cases hc : c = q
    · subst hc
      constructor
      · rw [scanQuoted_cons_none_quote]
        exact ih.2 []
      · intro acc
        rw [scanQuoted_cons_some_quote]
        by_cases hacc : ok acc.reverse = true
        · rw [if_pos hacc]
          exact List.cons_ne_nil _ _
        · rw [if_neg hacc]
          exact ih.2 []
    · constructor
      · rw [scanQuoted_cons_none_other ok q c _ hc]
        exact ih.1
      · intro acc
        rw [scanQuoted_cons_some_other ok q c _ acc hc]
        exact ih.2 (c :: acc)

lemma scanQuoted_all_ok (ok : Str → Bool) (q : Char) :
    ∀ (l : Str) (st : Option Str) (m : Str), m ∈ scanQuoted ok q l st → ok m = true := by
  intro l
  induction l with
  | nil => intro st m hm; cases st <;> simp [scanQuoted] at hm
  | cons c rest ih =>
    intro st m hm
    cases st with
    | none =>
      by_cases hc : c = q
      · subst hc
        rw [scanQuoted_cons_none_quote] at hm
        exact ih _ m hm
      · rw [scanQuoted_cons_none_other ok q c rest hc] at hm
        exact ih _ m hm
    | some acc =>
      by_cases hc : c = q
      · subst hc
        rw [scanQuoted_cons_some_quote] at hm
        by_cases hacc : ok acc.reverse = true
        · rw [if_pos hacc] at hm
          rcases List.mem_cons.mp hm with h | h
          · subst h; exact hacc
          · exact ih _ m h
        · rw [if_neg hacc] at hm
          exact ih _ m hm
      · rw [scanQuoted_cons_some_other ok q c rest acc hc] at hm
        exact ih _ m hm

lemma alpha_not_ws (c : Char) (h : c.isAlpha = true) : c.isWhitespace = false := by
  by_contra hcon
  have hw : c.isWhitespace = true := by
    revert hcon; cases c.isWhitespace <;> simp
  have hcases : ((c = ' ' ∨ c = '\t') ∨ c = '\r') ∨ c = '\n' := by
    simpa [Char.isWhitespace] using hw
  rcases hcases with ((h1 | h1) | h1) | h1 <;> subst h1 <;> exact absurd h (by decide)

lemma extSuffixOk_decomp (m : Str) (h : extSuffixOk m = true) :
    ∃ a b, m = a ++ '.' :: b ∧ a ≠ [] ∧ b ≠ [] ∧ (∀ x ∈ b, x.isAlpha = true) ∧
      2 ≤ b.length ∧ b.length ≤ 4 := by
  unfold extSuffixOk at h
  simp only [Bool.and_eq_true, decide_eq_true_eq] at h
  obtain ⟨⟨⟨h1, h2⟩, h3⟩, h4⟩ := h
  cases hrestc : m.reverse.dropWhile Char.isAlpha with
  | nil => rw [hrestc] at h3; cases h3
  | cons d rest' =>
    have hd : d = '.' := by rw [hrestc] at h3; simpa using h3
    have hrest' : rest' ≠ [] := by
      rw [hrestc] at h4
      simp only [List.length_cons] at h4
      intro hnil
      rw [hnil] at h4
      simp at h4
    refine ⟨rest'.reverse, (m.reverse.takeWhile Char.isAlpha).reverse, ?_, ?_, ?_, ?_, ?_, ?_⟩
    · calc m = m.reverse.reverse := (List.reverse_reverse m).symm
        _ = (m.reverse.takeWhile Char.isAlpha ++ m.reverse.dropWhile Char.isAlpha).reverse := by
              rw [List.takeWhile_append_dropWhile]
        _ = (m.reverse.dropWhile Char.isAlpha).reverse ++
              (m.reverse.takeWhile Char.isAlpha).reverse := by rw [List.reverse_append]
        _ = (d :: rest').reverse ++ (m.reverse.takeWhile Char.isAlpha).reverse := by
              rw [hrestc]
        _ = rest'.reverse ++ '.' :: (m.reverse.takeWhile Char.isAlpha).reverse := by
              rw [List.reverse_cons, hd, List.append_assoc]
              rfl
    · simpa using hrest'
    · have hrun : m.reverse.takeWhile Char.isAlpha ≠ [] := by
        intro hnil
        rw [hnil] at h1
        simp at h1
      simpa using hrun
    · intro x hx
      have hx' : x ∈ m.reverse.takeWhile Char.isAlpha := by
        rw [← List.mem_reverse]; exact hx
      exact List.mem_takeWhile_imp hx'
    · simpa using h1
    · simpa using h2

lemma dropWhile_append_not_head (p : Char → Bool) (a : Str) (d : Char) (ys : Str)
    (hd : p d = false) :
    (a ++ d :: ys).dropWhile p = a.dropWhile p ++ d :: ys := by
  rw [List.dropWhile_append]
  by_cases he : (a.dropWhile p).isEmpty = true
  · rw [if_pos he]
    rw [List.isEmpty_iff.mp he]
    simp [List.dropWhile_cons, hd]
  · rw [if_neg he]

lemma pyStrip_of_ext_decomp (a b : Str) (hb : b ≠ [])
    (halpha : ∀ x ∈ b, x.isAlpha = true) :
    pyStrip (a ++ '.' :: b) = a.dropWhile Char.isWhitespace ++ '.' :: b := by
  unfold pyStrip
  rw [dropWhile_append_not_head Char.isWhitespace a '.' b (by decide)]
  have hkey : ((a.dropWhile Char.isWhitespace ++ '.' :: b).reverse).dropWhile
      Char.isWhitespace = (a.dropWhile Char.isWhitespace ++ '.' :: b).reverse := by
    cases hbrev : b.reverse with
    | nil => exact absurd (by simpa using hbrev) hb
    | cons e es =>
      have he : e.isAlpha = true := by
        have hmem : e ∈ b.reverse := by rw [hbrev]; exact List.mem_cons_self _ _
        exact halpha e (List.mem_reverse.mp hmem)
      have hews : Char.isWhitespace e = false := alpha_not_ws e he
      rw [List.reverse_append, List.reverse_cons, hbrev]
      simp only [List.cons_append, List.dropWhile_cons, hews]
      simp
  rw [hkey, List.reverse_reverse]

lemma extSuffixOk_strip_long (m : Str) (h : extSuffixOk m = true) :
    1 < (pyStrip m).length := by
  obtain ⟨a, b, hdecomp, _, hb, halpha, hb2, _⟩ := extSuffixOk_decomp m h
  rw [hdecomp, pyStrip_of_ext_decomp a b hb halpha]
  simp only [List.length_append, List.length_cons]
  omega

lemma extract_quoted_branch (query : Str)
    (h : findQuotedBy extSuffixOk '"' query ++ findQuotedBy extSuffixOk '\'' query ≠ []) :
    extract_document_paths query =
      (((findQuotedBy extSuffixOk '"' query ++
          findQuotedBy extSuffixOk '\'' query).map pyStrip).filter
        (fun p => 1 < p.length)).dedup := by
  have h2 : (findQuotedBy extSuffixOk '"' query ++
      findQuotedBy extSuffixOk '\'' query).isEmpty = false :=
    List.isEmpty_eq_false.mpr h
  simp only [extract_document_paths]
  rw [h2]
  simp

/-- C7: an utterance containing a quoted token that ends in a 2–4 letter
extension is always classified as `ingest`, whatever management or search
keywords the utterance also contains: the extracted path set is non-empty, and
the ingest condition of `parse_query_intent` tests it before any keyword
branch. -/
theorem quoted_extension_token_forces_ingest (pre content post : Str) (qc : Char)
    (hq : qc = '"' ∨ qc = '\'')
    (hfree : ∀ x ∈ content, x ≠ qc)
    (hok : extSuffixOk content = true) :
    (parse_query_intent (pre ++ qc :: (content ++ qc :: post))).intent = str "ingest" := by
  have hquoted : findQuotedBy extSuffixOk '"' (pre ++ qc :: (content ++ qc :: post)) ++
      findQuotedBy extSuffixOk '\'' (pre ++ qc :: (content ++ qc :: post)) ≠ [] := by
    intro hcontra
    rcases List.append_eq_nil.mp hcontra with ⟨hdq, hsq⟩
    rcases hq with h | h <;> subst h
    · exact (scanQuoted_ne_nil extSuffixOk '"' content post hfree hok pre).1 hdq
    · exact (scanQuoted_ne_nil extSuffixOk '\'' content post hfree hok pre).1 hsq
  obtain ⟨m, hm⟩ := List.exists_mem_of_ne_nil _ hquoted
  have hmok : extSuffixOk m = true := by
    rcases List.mem_append.mp hm with h | h
    · exact scanQuoted_all_ok extSuffixOk '"' _ none m h
    · exact scanQuoted_all_ok extSuffixOk '\'' _ none m h
  have hmem : pyStrip m ∈
      extract_document_paths (pre ++ qc :: (content ++ qc :: post)) := by
    rw [extract_quoted_branch _ hquoted]
    apply List.mem_dedup.mpr
    apply List.mem_filter.mpr
    refine ⟨List.mem_map_of_mem pyStrip hm, ?_⟩
    simpa using extSuffixOk_strip_long m hmok
  have hne : extract_document_paths (pre ++ qc :: (content ++ qc :: post)) ≠ [] :=
    List.ne_nil_of_mem hmem
  have hfalse : (extract_document_paths
      (pre ++ qc :: (content ++ qc :: post))).isEmpty = false :=
    List.isEmpty_eq_false.mpr hne
  simp only [parse_query_intent]
  rw [hfalse]
  simp

/-- Closed instance: the utterance `delete "a.pdf" list` carries management
keywords (`delete`, `list`) and a quoted extension token; the classified
intent is `ingest`. -/
theorem quoted_extension_token_forces_ingest_witness :
    (parse_query_intent (str "delete " ++ '"' :: (str "a.pdf" ++ '"' :: str " list"))).intent =
      str "ingest" :=
  quoted_extension_token_forces_ingest (str "delete ") (str "a.pdf") (str " list") '"'
    (Or.inl rfl) (by decide) (by decide)

/-! ### Idempotence of path extraction (C9) -/

/-- Re-quoting the extracted output: each path wrapped in double quotes, the
quoted tokens separated by single spaces. -/
def requote : List Str → Str
  | [] => []
  | [p] => '"' :: (p ++ ['"'])
  | p :: ps => '"' :: (p ++ '"' :: ' ' :: requote ps)

/-- C9, counterexample: extraction is not idempotent.  The query `" .pdf"
"ok.txt"` extracts the set `{.pdf, ok.txt}` (the first token's stem is eaten
by `strip()`), but re-extracting from the re-quoted output `".pdf" "ok.txt"`
loses `.pdf`, whose quoted form no longer has a character before the dot, and
returns only `{ok.txt}`. -/
theorem extract_not_idempotent :
    extract_document_paths (str "\" .pdf\" \"ok.txt\"") = [str ".pdf", str "ok.txt"] ∧
    requote (extract_document_paths (str "\" .pdf\" \"ok.txt\"")) =
      str "\".pdf\" \"ok.txt\"" ∧
    extract_document_paths
        (requote (extract_document_paths (str "\" .pdf\" \"ok.txt\""))) =
      [str "ok.txt"] ∧
    str ".pdf" ∈ extract_document_paths (str "\" .pdf\" \"ok.txt\"") ∧
    str ".pdf" ∉ extract_document_paths
        (requote (extract_document_paths (str "\" .pdf\" \"ok.txt\""))) := by
  refine ⟨by decide, by decide, by decide, by decide, by decide⟩

lemma dropWhile_dropWhile_same (p : Char → Bool) (l : Str) :
    (l.dropWhile p).dropWhile p = l.dropWhile p := by
  induction l with
  | nil => rfl
  | cons c t ih =>
    cases hc : p c with
    | true => simp [List.dropWhile_cons, hc, ih]
    | false => simp [List.dropWhile_cons, hc]

lemma dropWhile_head_false (p : Char → Bool) :
    ∀ (l : Str) (c : Char) (t : Str), l.dropWhile p = c :: t → p c = false := by
  intro l
  induction l with
  | nil => intro c t h; cases h
  | cons x xs ih =>
    intro c t h
    cases hx : p x with
    | true =>
      rw [List.dropWhile_cons, hx] at h
      simp only [if_pos rfl] at h
      exact ih c t h
    | false =>
      rw [List.dropWhile_cons, hx] at h
      simp only [Bool.false_eq_true, if_false, List.cons.injEq] at h
      rw [← h.1]
      exact hx

lemma pyStrip_idem (l : Str) : pyStrip (pyStrip l) = pyStrip l := by
  unfold pyStrip
  have h1 : ((l.dropWhile Char.isWhitespace).reverse.dropWhile
      Char.isWhitespace).reverse.dropWhile Char.isWhitespace =
        ((l.dropWhile Char.isWhitespace).reverse.dropWhile Char.isWhitespace).reverse := by
    cases hBr : ((l.dropWhile Char.isWhitespace).reverse.dropWhile
        Char.isWhitespace).reverse with
    | nil => rfl
    | cons c t =>
      have hpre : ∃ u, l.dropWhile Char.isWhitespace = c :: (t ++ u) := by
        have hsplit : (l.dropWhile Char.isWhitespace).reverse.takeWhile Char.isWhitespace ++
            (l.dropWhile Char.isWhitespace).reverse.dropWhile Char.isWhitespace =
              (l.dropWhile Char.isWhitespace).reverse :=
          List.takeWhile_append_dropWhile _ _
        refine ⟨((l.dropWhile Char.isWhitespace).reverse.takeWhile
          Char.isWhitespace).reverse, ?_⟩
        calc l.dropWhile Char.isWhitespace
            = (l.dropWhile Char.isWhitespace).reverse.reverse := by rw [List.reverse_reverse]
          _ = ((l.dropWhile Char.isWhitespace).reverse.takeWhile Char.isWhitespace ++
                (l.dropWhile Char.isWhitespace).reverse.dropWhile
                  Char.isWhitespace).reverse := by rw [hsplit]
          _ = ((l.dropWhile Char.isWhitespace).reverse.dropWhile
                Char.isWhitespace).reverse ++
                ((l.dropWhile Char.isWhitespace).reverse.takeWhile
                  Char.isWhitespace).reverse := by rw [List.reverse_append]
          _ = c :: (t ++ ((l.dropWhile Char.isWhitespace).reverse.takeWhile
                Char.isWhitespace).reverse) := by rw [hBr]; rfl
      obtain ⟨u, hu⟩ := hpre
      have hc : Char.isWhitespace c = false :=
        dropWhile_head_false Char.isWhitespace l c (t ++ u) hu
      rw [List.dropWhile_cons, hc]
      simp
  rw [h1, List.reverse_reverse, dropWhile_dropWhile_same]

lemma mem_strip_filter_dedup {f : Str → Bool} {X : List Str} {p : Str}
    (hp : p ∈ ((X.map pyStrip).filter f).dedup) : pyStrip p = p := by
  have h1 := List.mem_dedup.mp hp
  have h2 := (List.mem_filter.mp h1).1
  obtain ⟨x, _, hx⟩ := List.mem_map.mp h2
  rw [← hx, pyStrip_idem]

lemma extract_document_paths_stripped (q p : Str)
    (hp : p ∈ extract_document_paths q) : pyStrip p = p := by
  simp only [extract_document_paths] at hp
  exact mem_strip_filter_dedup hp

lemma extract_document_paths_nodup (q : Str) : (extract_document_paths q).Nodup := by
  simp only [extract_document_paths]
  exact List.nodup_dedup _

lemma scanQuoted_no_quote (ok : Str → Bool) (q : Char) :
    ∀ l : Str, q ∉ l →
      scanQuoted ok q l none = [] ∧ ∀ acc, scanQuoted ok q l (some acc) = [] := by
  intro l
  induction l with
  | nil => intro _; exact ⟨rfl, fun _ => rfl⟩
  | cons c t ih =>
    intro hq
    have hc : c ≠ q := fun h => hq (h ▸ List.mem_cons_self _ _)
    have ht : q ∉ t := fun h => hq (List.mem_cons_of_mem _ h)
    refine ⟨?_, fun acc => ?_⟩
    · rw [scanQuoted_cons_none_other ok q c t hc]
      exact (ih ht).1
    · rw [scanQuoted_cons_some_other ok q c t acc hc]
      exact (ih ht).2 _

lemma findQuoted_requote (ps : List Str)
    (h : ∀ p ∈ ps, (∀ x ∈ p, x ≠ '"') ∧ extSuffixOk p = true) :
    scanQuoted extSuffixOk '"' (requote ps) none = ps := by
  induction ps with
  | nil => rfl
  | cons p ps ih =>
    obtain ⟨hfree, hok⟩ := h p (List.mem_cons_self _ _)
    have hrest : ∀ x ∈ ps, (∀ y ∈ x, y ≠ '"') ∧ extSuffixOk x = true :=
      fun x hx => h x (List.mem_cons_of_mem _ hx)
    cases ps with
    | nil =>
      show scanQuoted extSuffixOk '"' ('"' :: (p ++ '"' :: [])) none = [p]
      rw [scanQuoted_open extSuffixOk '"' p [] hfree hok]
      rfl
    | cons p2 ps2 =>
      show scanQuoted extSuffixOk '"'
          ('"' :: (p ++ '"' :: (' ' :: requote (p2 :: ps2)))) none = p :: p2 :: ps2
      rw [scanQuoted_open extSuffixOk '"' p (' ' :: requote (p2 :: ps2)) hfree hok]
      rw [scanQuoted_cons_none_other extSuffixOk '"' ' ' _ (by decide)]
      rw [ih hrest]

lemma quote_not_mem_requote (ps : List Str) (c : Char)
    (hc1 : c ≠ '"') (hc2 : c ≠ ' ')
    (h : ∀ p ∈ ps, c ∉ p) : c ∉ requote ps := by
  induction ps with
  | nil => simp [requote]
  | cons p ps ih =>
    cases ps with
    | nil =>
      simp only [requote]
      intro hmem
      rcases List.mem_cons.mp hmem with h1 | h1
      · exact hc1 h1
      · rcases List.mem_append.mp h1 with h2 | h2
        · exact h p (List.mem_cons_self _ _) h2
        · simp only [List.mem_singleton] at h2
          exact hc1 h2
    | cons p2 ps2 =>
      simp only [requote]
      intro hmem
      rcases List.mem_cons.mp hmem with h1 | h1
      · exact hc1 h1
      · rcases List.mem_append.mp h1 with h2 | h2
        · exact h p (List.mem_cons_self _ _) h2
        · rcases List.mem_cons.mp h2 with h3 | h3
          · exact hc1 h3
          · rcases List.mem_cons.mp h3 with h4 | h4
            · exact hc2 h4
            · exact ih (fun x hx => h x (List.mem_cons_of_mem _ hx)) h4

lemma extSuffixOk_len (m : Str) (h : extSuffixOk m = true) : 1 < m.length := by
  obtain ⟨a, b, hdecomp, ha, _, _, hb2, _⟩ := extSuffixOk_decomp m h
  have ha' : 0 < a.length := List.length_pos.mpr ha
  rw [hdecomp]
  simp only [List.length_append, List.length_cons]
  omega

/-- C9, amended: extraction is idempotent on queries whose extracted paths
contain no quote character of either style and still end in a dot-plus-2–4
letter extension preceded by at least one character (i.e. survive the
whitespace strip intact): re-quoting each output path and extracting again
returns exactly the same list, hence the same set. -/
theorem extract_idempotent_on_quote_free_outputs (q : Str)
    (h : ∀ p ∈ extract_document_paths q,
      ('"' ∉ p) ∧ ('\'' ∉ p) ∧ extSuffixOk p = true) :
    extract_document_paths (requote (extract_document_paths q)) =
      extract_document_paths q := by
  cases houtc : extract_document_paths q with
  | nil => rfl
  | cons m rest =>
    rw [← houtc]
    have hdq : findQuotedBy extSuffixOk '"' (requote (extract_document_paths q)) =
        extract_document_paths q :=
      findQuoted_requote (extract_document_paths q)
        (fun p hp => ⟨fun x hx hxq => (h p hp).1 (hxq ▸ hx), (h p hp).2.2⟩)
    have hsq : findQuotedBy extSuffixOk '\'' (requote (extract_document_paths q)) = [] :=
      (scanQuoted_no_quote extSuffixOk '\'' (requote (extract_document_paths q))
        (quote_not_mem_requote (extract_document_paths q) '\'' (by decide) (by decide)
          (fun p hp => (h p hp).2.1))).1
    have hne : findQuotedBy extSuffixOk '"' (requote (extract_document_paths q)) ++
        findQuotedBy extSuffixOk '\'' (requote (extract_document_paths q)) ≠ [] := by
      rw [hdq, hsq, List.append_nil, houtc]
      exact List.cons_ne_nil _ _
    rw [extract_quoted_branch _ hne, hdq, hsq, List.append_nil]
    have hmap : (extract_document_paths q).map pyStrip = extract_document_paths q := by
      rw [List.map_congr_left (fun p hp => extract_document_paths_stripped q p hp)]
      exact List.map_id _
    rw [hmap]
    have hfilter : (extract_document_paths q).filter (fun p => 1 < p.length) =
        extract_document_paths q :=
      List.filter_eq_self.mpr
        (fun p hp => by simpa using extSuffixOk_len p (h p hp).2.2)
    rw [hfilter]
    exact List.dedup_eq_self.mpr (extract_document_paths_nodup q)

/-- Closed instance of the amended idempotence theorem on a clean two-path
query. -/
theorem extract_idempotent_on_quote_free_outputs_witness :
    extract_document_paths
        (requote (extract_document_paths (str "Ingest \"doc.pdf\" \"notes.txt\""))) =
      extract_document_paths (str "Ingest \"doc.pdf\" \"notes.txt\"") :=
  extract_idempotent_on_quote_free_outputs (str "Ingest \"doc.pdf\" \"notes.txt\"")
    (by decide)
